import Mathlib

/-!
Shallow embedding of `flstweak.py` (Winner Micro .fls firmware parser/patcher).

Bytes are modelled as `Nat` (values `< 256` in well-formed data); byte strings
as `List Nat`.  The file object is modelled as an explicit cursor over an
immutable byte list.  Python exceptions become `Except` values: `ValueError`
(the only exception the program raises and catches deliberately) is modelled
by the inductive `FlsError`, while exceptions the program never catches
(`struct.error`, `IndexError`) are modelled by `PyError.crash`.
-/

namespace FLSTweak

/-- Constant `MAGIC_WORD = 0xA0FFFF9F` (flstweak.py line 46). -/
def MAGIC_WORD : Nat := 0xA0FFFF9F

/-- Constant `HEADER_SIZE_W80X = 64` (line 47). -/
def HEADER_SIZE_W80X : Nat := 64

/-- Constant `HEADER_SIZE_W60X = 56` (line 48). -/
def HEADER_SIZE_W60X : Nat := 56

/-- Constant `W60X_HEADER_PADDING = 200` (line 49). -/
def W60X_HEADER_PADDING : Nat := 200

/-- Constant `W60X_HEADER_PADDING_CRC = 0x947D8E12` (line 50). -/
def W60X_HEADER_PADDING_CRC : Nat := 0x947D8E12

/-- The reflected CRC-32 polynomial used by zlib/binascii. -/
def CRC_POLY : Nat := 0xEDB88320

/-- One bit step of the reflected CRC-32 register update. -/
def crcBit (c : Nat) : Nat := if c % 2 = 1 then (c / 2) ^^^ CRC_POLY else c / 2

/-- One byte step of the reflected CRC-32 register update (eight bit steps). -/
def crcByte (c b : Nat) : Nat :=
  crcBit (crcBit (crcBit (crcBit (crcBit (crcBit (crcBit (crcBit (c ^^^ b))))))))

/-- Modelled from the spec: Python's `binascii.crc32` (standard CRC-32:
reflected, polynomial `0xEDB88320`, initial value `0xFFFFFFFF`, final xor
`0xFFFFFFFF`).  The Python standard library implementation is not part of the
repository; this is the textbook definition of the algorithm, checked below
against the published test vector `crc32("123456789") = 0xCBF43926`. -/
def binascii_crc32 (data : List Nat) : Nat :=
  (data.foldl crcByte 0xFFFFFFFF) ^^^ 0xFFFFFFFF

/-- flstweak.py lines 54-55: `~binascii.crc32(data) & 0xFFFFFFFF`
(CRC-32/JAMCRC).  For `0 ≤ x < 2^32`, Python's `~x & 0xFFFFFFFF` is exactly
`x ^^^ 0xFFFFFFFF`. -/
def crc32 (data : List Nat) : Nat := binascii_crc32 data ^^^ 0xFFFFFFFF

/-- Python `struct.unpack("<I", ...)` on exactly four bytes (little endian).  All call
sites below pass a slice that is guaranteed to have length four; slices of any
other length would raise `struct.error` in Python and are never produced. -/
def le32 : List Nat → Nat
  | [a, b, c, d] => a + 256 * b + 65536 * c + 16777216 * d
  | _ => 0

/-- Python `struct.pack("<I", x)`: the four little-endian bytes of `x` (for
`x < 2^32`; larger values would raise in Python and never occur). -/
def le4 (x : Nat) : List Nat :=
  [x % 256, x / 256 % 256, x / 65536 % 256, x / 16777216 % 256]

/-- Python slice `l[off : off+n]`. -/
def seg (l : List Nat) (off n : Nat) : List Nat := (l.drop off).take n

/-- The binary file object: immutable contents plus a read cursor. -/
structure FileStream where
  data : List Nat
  pos : Nat
  deriving Repr, DecidableEq

/-- Python `file.read(n)`: returns up to `n` bytes from the cursor and advances the
cursor by the number of bytes actually read. -/
def fsRead (s : FileStream) (n : Nat) : List Nat × FileStream :=
  ((s.data.drop s.pos).take n, ⟨s.data, s.pos + ((s.data.drop s.pos).take n).length⟩)

/-- Python `file.seek(p)` (absolute). -/
def fsSeek (s : FileStream) (p : Nat) : FileStream := ⟨s.data, p⟩

/-- The distinct `ValueError`s raised by flstweak.py, one constructor per
`raise` site. -/
inductive FlsError where
  /-- line 63: "Invalid header, wrong size" (in `detect_firmware_type`) -/
  | wrongSize
  /-- line 74: "Unknown firmware type or corrupted header." -/
  | unknownType
  /-- line 81: "Invalid header, checksum verification failed (expected .., actual ..)" -/
  | headerChecksum (expected actual : Nat)
  /-- line 227: "Invalid header, incorrect magic word (expected .., actual ..)" -/
  | wrongMagic (expected actual : Nat)
  /-- line 230: "Invalid header, incorrect size (expected .., actual ..)" -/
  | wrongHeaderSize (expected actual : Nat)
  /-- line 264: "No reference files found in specified directory." -/
  | noRefFiles
  /-- line 294: "Matching modification file not found for .." -/
  | modFileNotFound
  /-- line 300: "Reference and modification files must be the same size." -/
  | refModSizeMismatch
  /-- line 306: "Invalid replacement reference file or directory." -/
  | invalidReplaceTarget
  deriving Repr, DecidableEq

/-- A Python exception: either a `ValueError` (caught by `parse_firmware`) or
an exception the program never catches (`struct.error`, `IndexError`), which
terminates the process. -/
inductive PyError where
  | valueError (e : FlsError)
  | crash
  deriving Repr, DecidableEq

/-- flstweak.py lines 58-74, `detect_firmware_type`.  Returns the result
together with the file stream (whose cursor position the function manipulates).
Note that the wrong-size `raise` at line 63 happens before the cursor is
restored at line 68. -/
def detect_firmware_type (file : FileStream) : Except FlsError String × FileStream :=
  let original_position := file.pos
  let file := fsSeek file 0
  let (header_data, file) := fsRead file HEADER_SIZE_W80X
  if header_data.length < HEADER_SIZE_W60X then
    (.error .wrongSize, file)
  else
    let test_crc32 := le32 (seg header_data 52 4)
    let data_crc32 := crc32 (header_data.take 52)
    let file := fsSeek file original_position
    if data_crc32 = test_crc32 then (.ok "W60x", file)
    else if HEADER_SIZE_W80X ≤ header_data.length then (.ok "W80x", file)
    else (.error .unknownType, file)

/-- flstweak.py lines 77-82, `validate_header`.  The checksum mismatch is a
`raise ValueError` in the source; success returns `True`. -/
def validate_header (header : List Nat) (header_size : Nat) (hd_checksum : Nat) :
    Except FlsError Bool :=
  let data_size := header_size - 4
  let cks := crc32 (header.take data_size)
  if cks ≠ hd_checksum then .error (.headerChecksum hd_checksum cks)
  else .ok true

/-- Python `body.find(ref)`: index of the first occurrence of `ref` as a
contiguous sublist of `body` (`none` for Python's `-1`).  An empty `ref` is
found at index `0`, as in Python. -/
def findSub (body ref : List Nat) : Option Nat :=
  match body with
  | [] => if ref = [] then some 0 else none
  | _ :: t =>
    if body.take ref.length = ref then some 0
    else (findSub t ref).map (· + 1)

/-- flstweak.py lines 85-89, `replace_data`. -/
def replace_data (body ref_data mod_data : List Nat) : List Nat × Bool :=
  match findSub body ref_data with
  | none => (body, false)
  | some ref_index =>
    (body.take ref_index ++ mod_data ++ body.drop (ref_index + ref_data.length), true)

/-- Predicate: `ref` occurs in `body` at index `i`. -/
def OccursAt (body ref : List Nat) (i : Nat) : Prop :=
  i + ref.length ≤ body.length ∧ (body.drop i).take ref.length = ref

instance (body ref : List Nat) (i : Nat) : Decidable (OccursAt body ref i) :=
  inferInstanceAs (Decidable (_ ∧ _))

/-- The W80x ("VariantB") header layout, `struct` format `<IIIIIIII16sIIII`
(field names and order from flstweak.py lines 146-155 and 237-238). -/
structure W80xHeader where
  magic : Nat
  img_attr : Nat
  img_addr : Nat
  img_len : Nat
  img_header_addr : Nat
  upgrade_img_addr : Nat
  org_checksum : Nat
  upd_no : Nat
  ver : List Nat
  reserved0 : Nat
  reserved1 : Nat
  next_img_addr : Nat
  hd_checksum : Nat
  deriving Repr, DecidableEq

/-- The W60x ("VariantA") header layout, `struct` format `<IIIIIIIII16sI`
(field names and order from flstweak.py lines 138-144 and 233-234). -/
structure W60xHeader where
  magic : Nat
  img_attr : Nat
  img_addr : Nat
  img_len : Nat
  org_checksum : Nat
  upgrade_img_addr : Nat
  upgrade_img_len : Nat
  upgrade_img_checksum : Nat
  upd_no : Nat
  ver : List Nat
  hd_checksum : Nat
  deriving Repr, DecidableEq

/-- Python `struct.unpack("<IIIIIIII16sIIII", d)` for a 64-byte `d`. -/
def unpack64 (d : List Nat) : W80xHeader :=
  ⟨le32 (seg d 0 4), le32 (seg d 4 4), le32 (seg d 8 4), le32 (seg d 12 4),
   le32 (seg d 16 4), le32 (seg d 20 4), le32 (seg d 24 4), le32 (seg d 28 4),
   seg d 32 16, le32 (seg d 48 4), le32 (seg d 52 4), le32 (seg d 56 4),
   le32 (seg d 60 4)⟩

/-- Python `struct.unpack("<IIIIIIIII16sI", d)` for a 56-byte `d`. -/
def unpack56 (d : List Nat) : W60xHeader :=
  ⟨le32 (seg d 0 4), le32 (seg d 4 4), le32 (seg d 8 4), le32 (seg d 12 4),
   le32 (seg d 16 4), le32 (seg d 20 4), le32 (seg d 24 4), le32 (seg d 28 4),
   le32 (seg d 32 4), seg d 36 16, le32 (seg d 52 4)⟩

/-- Python `struct.pack("<16s", v)`: pad with zero bytes / truncate to 16 bytes. -/
def pad16 (v : List Nat) : List Nat := v.take 16 ++ List.replicate (16 - v.length) 0

/-- Python `struct.pack("<IIIIIIII16sIII", ...)`: the first twelve W80x header fields
(everything except the trailing header checksum), 60 bytes. -/
def pack60 (h : W80xHeader) : List Nat :=
  le4 h.magic ++ le4 h.img_attr ++ le4 h.img_addr ++ le4 h.img_len ++
  le4 h.img_header_addr ++ le4 h.upgrade_img_addr ++ le4 h.org_checksum ++
  le4 h.upd_no ++ pad16 h.ver ++ le4 h.reserved0 ++ le4 h.reserved1 ++
  le4 h.next_img_addr

/-- Python `struct.pack("<IIIIIIII16sIIII", ...)`: the full 64-byte W80x header. -/
def pack64 (h : W80xHeader) : List Nat := pack60 h ++ le4 h.hd_checksum

/-- Python `struct.pack("<IIIIIIIII16sI", ...)`: the full 56-byte W60x header. -/
def pack56 (h : W60xHeader) : List Nat :=
  le4 h.magic ++ le4 h.img_attr ++ le4 h.img_addr ++ le4 h.img_len ++
  le4 h.org_checksum ++ le4 h.upgrade_img_addr ++ le4 h.upgrade_img_len ++
  le4 h.upgrade_img_checksum ++ le4 h.upd_no ++ pad16 h.ver ++ le4 h.hd_checksum

/-- One reference/modified replacement pair found in a `--replace` directory:
a `…ref.bin` file plus its `…mod.bin` companion (`none` when the companion
file does not exist, flstweak.py lines 272-274). -/
structure DirEntry where
  name : String
  ref : List Nat
  mod : Option (List Nat)
  deriving Repr, DecidableEq

/-- The decoded `--replace` argument, as the core receives it after the file
system tests at flstweak.py lines 261, 290 and 305: a directory of entries, a
single `…ref.bin` file (with its `…mod.bin` contents when that file exists),
or anything else (which raises). -/
inductive RefTarget where
  | dir (entries : List DirEntry)
  | single (name : String) (ref : List Nat) (mod : Option (List Nat))
  | invalid
  deriving Repr, DecidableEq

/-- State of the directory-mode loop of flstweak.py lines 266-288: the current
`new_body`, the `replaced` flag, and the `replaced_files` report in insertion
order. -/
abbrev DirState := List Nat × Bool × List (String × Bool)

/-- One iteration of the directory-mode loop (flstweak.py lines 267-288):
a missing mod file or a ref/mod size mismatch skips the pair (`continue`);
otherwise `replace_data` is applied — to the accumulated `new_body` once a
previous pair has matched, to the original `body` before that — and after a
first match the `replaced` flag stays `True` regardless of later pairs. -/
def dirStep (body : List Nat) (st : DirState) (e : DirEntry) : DirState :=
  match e.mod with
  | none => st
  | some mod_data =>
    if e.ref.length ≠ mod_data.length then st
    else
      let (nb, replaced, reports) := st
      if replaced then
        let (nb2, r2) := replace_data nb e.ref mod_data
        (nb2, true, reports ++ [(e.name, r2)])
      else
        let (nb2, r2) := replace_data body e.ref mod_data
        (nb2, r2, reports ++ [(e.name, r2)])

/-- The whole directory-mode loop. -/
def dirReplaceLoop (body : List Nat) (st : DirState) (entries : List DirEntry) :
    DirState :=
  entries.foldl (dirStep body) st

/-- The replacement phase of `process_image` (flstweak.py lines 260-306),
entered when a replace target was given and the body is valid.  Returns
`(new_body, replaced, reports)` or the `ValueError` the source raises. -/
def replacePhase (body : List Nat) : RefTarget →
    Except PyError (List Nat × Bool × List (String × Bool))
  | .dir entries =>
    if entries = [] then .error (.valueError .noRefFiles)
    else .ok (dirReplaceLoop body (body, false, []) entries)
  | .single name ref mod =>
    match mod with
    | none => .error (.valueError .modFileNotFound)
    | some mod_data =>
      if ref.length ≠ mod_data.length then .error (.valueError .refModSizeMismatch)
      else
        let (nb, replaced) := replace_data body ref mod_data
        .ok (nb, replaced, [(name, replaced)])
  | .invalid => .error (.valueError .invalidReplaceTarget)

/-- flstweak.py lines 309-312: after a match, rewrite the header's original
body checksum field (`new_header[6]`) with the checksum of the new body, then
recompute the trailing header checksum (`new_header[12]`) over the packed
first twelve fields. -/
def patchHeader (header : W80xHeader) (new_body : List Nat) : W80xHeader :=
  let h1 := { header with org_checksum := crc32 new_body }
  { h1 with hd_checksum := crc32 (pack60 h1) }

/-- flstweak.py lines 198-204: consume 4-byte chunks while they equal
`FF FF FF FF`; a short read stops, a non-`FF` chunk is rewound
(`file.seek(-4, 1)`). -/
def skipFF (s : FileStream) : FileStream :=
  if ((s.data.drop s.pos).take 4).length < 4 then
    ⟨s.data, s.pos + ((s.data.drop s.pos).take 4).length⟩
  else if (s.data.drop s.pos).take 4 ≠ [0xFF, 0xFF, 0xFF, 0xFF] then
    ⟨s.data, s.pos + ((s.data.drop s.pos).take 4).length - 4⟩
  else skipFF ⟨s.data, s.pos + ((s.data.drop s.pos).take 4).length⟩
termination_by s.data.length - s.pos
decreasing_by
  simp only [List.length_take, List.length_drop] at *
  omega

/-- flstweak.py lines 193-208: read the header; in W60x mode, if the 56 bytes
read hash to the `0xFF`-padding sentinel `0x27445404`, skip the `0xFF` filler
and re-read the header.  Returns `(header_size, header_data, file)`. -/
def readHeaderPhase (file : FileStream) (firmware_type : String) :
    Nat × List Nat × FileStream :=
  if firmware_type = "W60x" then
    let (header_data, f) := fsRead file HEADER_SIZE_W60X
    if crc32 header_data = 0x27445404 then
      let f2 := skipFF f
      let (header_data2, f3) := fsRead f2 HEADER_SIZE_W60X
      (HEADER_SIZE_W60X, header_data2, f3)
    else (HEADER_SIZE_W60X, header_data, f)
  else
    let (header_data, f) := fsRead file HEADER_SIZE_W80X
    (HEADER_SIZE_W80X, header_data, f)

/-- flstweak.py lines 210-221.  Image numbers are Python floats that are
always exact multiples of 0.1; they are modelled in tenths (so `1` is `10`,
the wrapped-image increment `0.1` is `1`).  For the first W60x image
(`image_number == 1`) an empty header read triggers the wrapped-image retry at
offset 56; otherwise an empty header read ends the walk (`return None`,
modelled as `none`).  Returns `(header_data, file, image_number,
image_increment)`. -/
def wrapperPhase (firmware_type : String) (image_number header_size : Nat)
    (header_data : List Nat) (file : FileStream) :
    Option (List Nat × FileStream × Nat × Nat) :=
  if firmware_type = "W60x" ∧ image_number = 10 then
    if header_data = [] then
      let f2 := fsSeek file 56
      let (header_data2, f3) := fsRead f2 header_size
      some (header_data2, f3, 0, 1)
    else some (header_data, file, image_number, 10)
  else if header_data = [] then none
  else some (header_data, file, image_number, 10)

/-- The parsed header of either variant. -/
inductive ParsedHeader where
  | w60x (h : W60xHeader)
  | w80x (h : W80xHeader)
  deriving Repr, DecidableEq

/-- flstweak.py lines 225-239: magic word check, header size check, unpack,
and `validate_header` on the re-packed tuple.  A header shorter than four
bytes would make `struct.unpack("<I", ...)` raise `struct.error` (uncaught).
Returns the parsed header plus the `img_len` and `org_checksum` locals. -/
def headerChecks (firmware_type : String) (header_size : Nat)
    (header_data : List Nat) : Except PyError (ParsedHeader × Nat × Nat) :=
  if header_data.length < 4 then .error .crash
  else
    let magic_data := le32 (header_data.take 4)
    if magic_data ≠ MAGIC_WORD then
      .error (.valueError (.wrongMagic MAGIC_WORD magic_data))
    else if header_data.length ≠ header_size then
      .error (.valueError (.wrongHeaderSize header_size header_data.length))
    else if firmware_type = "W60x" then
      let header := unpack56 header_data
      match validate_header (pack56 header) header_size header.hd_checksum with
      | .error e => .error (.valueError e)
      | .ok _ => .ok (.w60x header, header.img_len, header.org_checksum)
    else
      let header := unpack64 header_data
      match validate_header (pack64 header) header_size header.hd_checksum with
      | .error e => .error (.valueError e)
      | .ok _ => .ok (.w80x header, header.img_len, header.org_checksum)

/-- flstweak.py lines 241-250: in W60x mode, peek a 200-byte filler block and
consume it only when its checksum equals the padding sentinel; then read
`img_len` body bytes. -/
def readBodyPhase (file : FileStream) (firmware_type : String) (img_len : Nat) :
    List Nat × FileStream :=
  if firmware_type = "W60x" then
    let file_position := file.pos
    let (filler_test, f2) := fsRead file W60X_HEADER_PADDING
    let f3 :=
      if crc32 filler_test = W60X_HEADER_PADDING_CRC then
        fsSeek f2 (file_position + W60X_HEADER_PADDING)
      else fsSeek f2 file_position
    fsRead f3 img_len
  else fsRead file img_len

/-- The `Image` record of the spec's data model, holding what one iteration of
the walk reports for one image: the parsed header, the body, the recomputed
body checksum, and the two validity verdicts printed by `print_image_info`
(flstweak.py lines 162-165 and 185-188; `valid_body` of lines 252-257 is their
conjunction). -/
structure ImageRec where
  header : ParsedHeader
  body : List Nat
  body_checksum : Nat
  size_valid : Bool
  checksum_valid : Bool
  deriving Repr, DecidableEq

/-- flstweak.py lines 252-342 minus printing: compute the validity verdicts,
run the replacement phase when a target was given and the body is valid,
write header+body (patched or not) to the output container, and collect the
extracted bodies.  Returns `(image record, bytes written to the output file,
extracted bodies, replacement reports)`.  In the `replaced` branch the source
assigns `new_header[12]` and packs with the 13-field W80x format; on a W60x
11-field tuple that is an uncaught `IndexError`/`struct.error` (`crash`) —
unreachable from `parse_firmware`, which never passes a replace target for
W60x. -/
def emitPhase (phdr : ParsedHeader) (body : List Nat) (img_len org_checksum : Nat)
    (replace_target : Option RefTarget) (extract : Bool) :
    Except PyError (ImageRec × List Nat × List (List Nat) × List (String × Bool)) :=
  let body_checksum := crc32 body
  let body_len := body.length
  let size_valid := decide (body_len = img_len)
  let checksum_valid := decide (body_checksum = org_checksum)
  let valid_body := size_valid && checksum_valid
  let imageRec : ImageRec := ⟨phdr, body, body_checksum, size_valid, checksum_valid⟩
  match replace_target with
  | some tgt =>
    if valid_body then
      match replacePhase body tgt with
      | .error e => .error e
      | .ok (new_body, replaced, reports) =>
        if replaced then
          match phdr with
          | .w80x h =>
            let new_header := patchHeader h new_body
            .ok (imageRec, pack64 new_header ++ new_body,
                 if extract then [body, new_body] else [], reports)
          | .w60x _ => .error .crash
        else
          match phdr with
          | .w80x h =>
            .ok (imageRec, pack64 h ++ body,
                 if extract then [body] else [], reports)
          | .w60x _ => .error .crash
    else .ok (imageRec, [], if extract then [body] else [], [])
  | none => .ok (imageRec, [], if extract then [body] else [], [])

/-- Everything one successful `process_image` call produces. -/
structure StepOut where
  image : ImageRec
  nextNumber : Nat
  outBytes : List Nat
  extracts : List (List Nat)
  reports : List (String × Bool)
  deriving Repr, DecidableEq

/-- flstweak.py lines 192-344, `process_image`: one iteration of the image
walk.  `.ok none` models `return None` (clean end of the walk); `.ok (some _)`
models `return image_number + image_increment` together with everything the
iteration printed/wrote. -/
def process_image (file : FileStream) (firmware_type : String) (image_number : Nat)
    (replace_target : Option RefTarget) (extract : Bool) :
    Except PyError (Option (StepOut × FileStream)) :=
  let (header_size, header_data0, file0) := readHeaderPhase file firmware_type
  match wrapperPhase firmware_type image_number header_size header_data0 file0 with
  | none => .ok none
  | some (header_data, file1, image_number, image_increment) =>
    match headerChecks firmware_type header_size header_data with
    | .error e => .error e
    | .ok (phdr, img_len, org_checksum) =>
      let (body, file2) := readBodyPhase file1 firmware_type img_len
      match emitPhase phdr body img_len org_checksum replace_target extract with
      | .error e => .error e
      | .ok (imageRec, outBytes, extracts, reports) =>
        .ok (some (⟨imageRec, image_number + image_increment, outBytes, extracts,
                    reports⟩, file2))

/-- Result of one run of `parse_firmware`: detected type, images reported in
order, output-container bytes (`some` iff an output file was created, i.e.
replacement mode), extracted bodies, replacement reports, the `ValueError`
that was caught and printed (if any), and whether the process died on an
uncaught exception (or the loop fuel ran out, which terminating runs never
hit). -/
structure RunResult where
  firmware_type : Option String
  images : List ImageRec
  output : Option (List Nat)
  extracts : List (List Nat)
  reports : List (String × Bool)
  errorMsg : Option FlsError
  crashed : Bool
  deriving Repr, DecidableEq

/-- The `while True` loops of flstweak.py lines 357-364 / 367-374: call
`process_image` until it returns a falsy image number (`None`, or a numeric
zero) or raises; a `ValueError` is printed and breaks the loop, anything else
propagates (crash).  Returns `(images, output bytes, extracts, reports,
caught ValueError, crashed)`. -/
def walkLoop (fuel : Nat) (file : FileStream) (firmware_type : String)
    (image_number : Nat) (replace_target : Option RefTarget) (extract : Bool) :
    List ImageRec × List Nat × List (List Nat) × List (String × Bool) ×
      Option FlsError × Bool :=
  match fuel with
  | 0 => ([], [], [], [], none, true)
  | fuel + 1 =>
    match process_image file firmware_type image_number replace_target extract with
    | .error (.valueError e) => ([], [], [], [], some e, false)
    | .error .crash => ([], [], [], [], none, true)
    | .ok none => ([], [], [], [], none, false)
    | .ok (some (out, file2)) =>
      if out.nextNumber = 0 then
        ([out.image], out.outBytes, out.extracts, out.reports, none, false)
      else
        let (imgs, ob, ex, rp, er, cr) :=
          walkLoop fuel file2 firmware_type out.nextNumber replace_target extract
        (out.image :: imgs, out.outBytes ++ ob, out.extracts ++ ex,
         out.reports ++ rp, er, cr)

/-- flstweak.py lines 347-379, `parse_firmware`, over in-memory container
bytes.  Replacement mode (an output container is created and `process_image`
receives the replace target) is entered only when a replace target was given
and the detected type is not W60x (line 354).  A `ValueError` from
`detect_firmware_type` is caught by the outer handler (line 378).  The fuel
`2 * data.length + 4` dominates the iteration count of every terminating walk
(each iteration past the at-most-one wrapped-image reseek consumes at least
one byte). -/
def parse_firmware (data : List Nat) (replace : Option RefTarget)
    (extract : Bool) : RunResult :=
  let file : FileStream := ⟨data, 0⟩
  match detect_firmware_type file with
  | (.error e, _) => ⟨none, [], none, [], [], some e, false⟩
  | (.ok firmware_type, file) =>
    let fuel := 2 * data.length + 4
    if replace.isSome ∧ firmware_type ≠ "W60x" then
      let (imgs, ob, ex, rp, er, cr) :=
        walkLoop fuel file firmware_type 0 replace extract
      ⟨some firmware_type, imgs, some ob, ex, rp, er, cr⟩
    else
      let (imgs, _ob, ex, rp, er, cr) :=
        walkLoop fuel file firmware_type 0 none extract
      ⟨some firmware_type, imgs, none, ex, rp, er, cr⟩

/-! ### Helper lemmas about slices and the binary codec -/

theorem seg_append (l : List Nat) (off a b : Nat) :
    seg l off a ++ seg l (off + a) b = seg l off (a + b) := by
  unfold seg
  rw [List.take_add, ← List.drop_drop]

theorem seg_append' (l : List Nat) (off a off2 b c : Nat) (h1 : off2 = off + a)
    (h2 : c = a + b) : seg l off a ++ seg l off2 b = seg l off c := by
  subst h1; subst h2; exact seg_append l off a b

theorem seg_length (l : List Nat) (off n : Nat) (h : off + n ≤ l.length) :
    (seg l off n).length = n := by
  unfold seg
  rw [List.length_take, List.length_drop]
  omega

theorem seg_mem {l : List Nat} {off n : Nat} {x : Nat} (h : x ∈ seg l off n) :
    x ∈ l :=
  List.mem_of_mem_drop (List.mem_of_mem_take h)

theorem seg_zero (l : List Nat) (n : Nat) : seg l 0 n = l.take n := by
  unfold seg
  rw [List.drop_zero]

theorem le4_le32 (l : List Nat) (hl : l.length = 4) (hb : ∀ x ∈ l, x < 256) :
    le4 (le32 l) = l := by
  match l, hl with
  | [a, b, c, d], _ =>
    have ha : a < 256 := hb _ (by simp)
    have hb2 : b < 256 := hb _ (by simp)
    have hc : c < 256 := hb _ (by simp)
    have hd : d < 256 := hb _ (by simp)
    have h32 : le32 [a, b, c, d] = a + 256 * b + 65536 * c + 16777216 * d := rfl
    simp only [le4, h32, List.cons.injEq, and_true]
    refine ⟨?_, ?_, ?_, ?_⟩
    · omega
    · omega
    · omega
    · omega

theorem le32_le4 (x : Nat) (hx : x < 4294967296) : le32 (le4 x) = x := by
  simp only [le4, le32]
  omega

theorem le4_length (x : Nat) : (le4 x).length = 4 := rfl

theorem pad16_length (v : List Nat) : (pad16 v).length = 16 := by
  simp only [pad16, List.length_append, List.length_take, List.length_replicate]
  omega

theorem pad16_of_length (v : List Nat) (h : v.length = 16) : pad16 v = v := by
  unfold pad16
  rw [h, List.take_of_length_le (by omega)]
  simp

theorem pack60_length (h : W80xHeader) : (pack60 h).length = 60 := by
  simp only [pack60, List.length_append, le4_length, pad16_length]

theorem pack64_length (h : W80xHeader) : (pack64 h).length = 64 := by
  simp only [pack64, List.length_append, pack60_length, le4_length]

theorem pack64_take_60 (h : W80xHeader) : (pack64 h).take 60 = pack60 h :=
  List.take_left' (pack60_length h)

theorem pack64_ne_nil (h : W80xHeader) : pack64 h ≠ [] := by
  intro hc
  have := pack64_length h
  rw [hc] at this
  simp at this

/-- Repacking: `struct.pack` is a left inverse of `struct.unpack` on 64-byte strings:
re-packing the unpacked W80x header tuple reproduces the raw header bytes. -/
theorem pack64_unpack64 (d : List Nat) (hl : d.length = 64)
    (hb : ∀ x ∈ d, x < 256) : pack64 (unpack64 d) = d := by
  have hseg : ∀ off : Nat, off + 4 ≤ 64 → le4 (le32 (seg d off 4)) = seg d off 4 := by
    intro off hoff
    exact le4_le32 _ (seg_length _ _ _ (by omega)) (fun x hx => hb x (seg_mem hx))
  have hver : pad16 (seg d 32 16) = seg d 32 16 :=
    pad16_of_length _ (seg_length _ _ _ (by omega))
  unfold pack64 pack60 unpack64
  simp only []
  rw [hseg 0 (by omega), hseg 4 (by omega), hseg 8 (by omega), hseg 12 (by omega),
    hseg 16 (by omega), hseg 20 (by omega), hseg 24 (by omega), hseg 28 (by omega),
    hver, hseg 48 (by omega), hseg 52 (by omega), hseg 56 (by omega),
    hseg 60 (by omega)]
  rw [seg_append' d 0 4 4 4 8 (by norm_num) (by norm_num),
    seg_append' d 0 8 8 4 12 (by norm_num) (by norm_num),
    seg_append' d 0 12 12 4 16 (by norm_num) (by norm_num),
    seg_append' d 0 16 16 4 20 (by norm_num) (by norm_num),
    seg_append' d 0 20 20 4 24 (by norm_num) (by norm_num),
    seg_append' d 0 24 24 4 28 (by norm_num) (by norm_num),
    seg_append' d 0 28 28 4 32 (by norm_num) (by norm_num),
    seg_append' d 0 32 32 16 48 (by norm_num) (by norm_num),
    seg_append' d 0 48 48 4 52 (by norm_num) (by norm_num),
    seg_append' d 0 52 52 4 56 (by norm_num) (by norm_num),
    seg_append' d 0 56 56 4 60 (by norm_num) (by norm_num),
    seg_append' d 0 60 60 4 64 (by norm_num) (by norm_num)]
  rw [seg_zero, List.take_of_length_le (by omega)]

/-! ### The checksum: bounds and the complement identity -/

theorem crcBit_lt (c : Nat) (h : c < 4294967296) : crcBit c < 4294967296 := by
  unfold crcBit CRC_POLY
  split
  · exact Nat.xor_lt_two_pow (n := 32) (by omega) (by norm_num)
  · omega

theorem crcByte_lt (c b : Nat) (hc : c < 4294967296) (hb : b < 256) :
    crcByte c b < 4294967296 := by
  unfold crcByte
  have h0 : c ^^^ b < 4294967296 :=
    Nat.xor_lt_two_pow (n := 32) (by omega) (by omega)
  exact crcBit_lt _ (crcBit_lt _ (crcBit_lt _ (crcBit_lt _ (crcBit_lt _
    (crcBit_lt _ (crcBit_lt _ (crcBit_lt _ h0)))))))

theorem foldl_crcByte_lt (l : List Nat) (hb : ∀ x ∈ l, x < 256) :
    ∀ c, c < 4294967296 → l.foldl crcByte c < 4294967296 := by
  induction l with
  | nil => intro c hc; simpa using hc
  | cons x t ih =>
    intro c hc
    simp only [List.foldl_cons]
    exact ih (fun y hy => hb y (List.mem_cons_of_mem _ hy)) _
      (crcByte_lt _ _ hc (hb x (List.mem_cons_self _ _)))

theorem binascii_crc32_lt (l : List Nat) (hb : ∀ x ∈ l, x < 256) :
    binascii_crc32 l < 4294967296 := by
  unfold binascii_crc32
  exact Nat.xor_lt_two_pow (n := 32)
    (foldl_crcByte_lt l hb _ (by norm_num)) (by norm_num)

/-- Xor with an all-ones mask is subtraction from the mask: the 32-bit bitwise
complement `~x & 0xFFFFFFFF` equals `2^32 - 1 - x` for `x < 2^32`. -/
theorem xor_ones (n : Nat) : ∀ x, x < 2 ^ n → x ^^^ (2 ^ n - 1) = 2 ^ n - 1 - x := by
  induction n with
  | zero =>
    intro x hx
    simp only [pow_zero] at hx ⊢
    have hx0 : x = 0 := by omega
    subst hx0
    rfl
  | succ n ih =>
    intro x hx
    have hpow : (2 : Nat) ^ (n + 1) = 2 * 2 ^ n := by rw [Nat.pow_succ]; ring
    have hp : 0 < (2 : Nat) ^ n := Nat.pos_pow_of_pos n (by norm_num)
    have hx2 : x / 2 < 2 ^ n := by omega
    have hdiv : (x ^^^ (2 ^ (n + 1) - 1)) / 2 = (x / 2) ^^^ (2 ^ n - 1) := by
      rw [Nat.xor_div_two]
      congr 1
      omega
    have hIH := ih (x / 2) hx2
    have hodd : (2 ^ (n + 1) - 1) % 2 = 1 := by omega
    have hmod : (x ^^^ (2 ^ (n + 1) - 1)) % 2 = 1 - x % 2 := by
      rcases Nat.mod_two_eq_zero_or_one x with h | h
      · have h1 : (x ^^^ (2 ^ (n + 1) - 1)) % 2 = 1 := by
          rw [Nat.xor_mod_two_eq_one]
          simp [h, hodd]
        omega
      · have h1 : ¬ (x ^^^ (2 ^ (n + 1) - 1)) % 2 = 1 := by
          rw [Nat.xor_mod_two_eq_one]
          simp [h, hodd]
        have h2 := Nat.mod_two_eq_zero_or_one (x ^^^ (2 ^ (n + 1) - 1))
        omega
    have hdm := Nat.div_add_mod (x ^^^ (2 ^ (n + 1) - 1)) 2
    have hdmx := Nat.div_add_mod x 2
    omega

/-! ### First-occurrence search: `findSub` matches Python `bytes.find` -/

theorem occursAt_nil {ref : List Nat} {k : Nat} :
    OccursAt [] ref k ↔ (ref = [] ∧ k = 0) := by
  unfold OccursAt
  constructor
  · rintro ⟨h1, h2⟩
    simp only [List.length_nil, Nat.le_zero] at h1
    have : ref.length = 0 := by omega
    rw [List.length_eq_zero] at this
    exact ⟨this, by omega⟩
  · rintro ⟨rfl, rfl⟩
    simp

theorem occursAt_zero {body ref : List Nat} :
    OccursAt body ref 0 ↔ body.take ref.length = ref := by
  unfold OccursAt
  constructor
  · rintro ⟨-, h2⟩
    simpa using h2
  · intro h
    refine ⟨?_, by simpa using h⟩
    have hlen := congrArg List.length h
    rw [List.length_take] at hlen
    omega

theorem occursAt_cons {x : Nat} {t ref : List Nat} {k : Nat} :
    OccursAt (x :: t) ref (k + 1) ↔ OccursAt t ref k := by
  unfold OccursAt
  simp only [List.drop_succ_cons, List.length_cons]
  constructor
  · rintro ⟨h1, h2⟩
    exact ⟨by omega, h2⟩
  · rintro ⟨h1, h2⟩
    exact ⟨by omega, h2⟩

/-- Search: `findSub` returns `none` exactly when the pattern occurs nowhere. -/
theorem findSub_none (body ref : List Nat) :
    findSub body ref = none ↔ ∀ k, ¬ OccursAt body ref k := by
  induction body with
  | nil =>
    constructor
    · intro h k hk
      unfold findSub at h
      rw [occursAt_nil] at hk
      simp [hk.1] at h
    · intro hall
      unfold findSub
      have : ref ≠ [] := fun hr => hall 0 (occursAt_nil.mpr ⟨hr, rfl⟩)
      simp [this]
  | cons x t ih =>
    constructor
    · intro h k
      unfold findSub at h
      split at h
      · exact absurd h (by simp)
      · rename_i htake
        have ht : findSub t ref = none := by
          cases hft : findSub t ref
          · rfl
          · rw [hft] at h
            simp at h
        match k with
        | 0 =>
          rw [occursAt_zero]
          exact htake
        | k + 1 =>
          rw [occursAt_cons]
          exact (ih.mp ht) k
    · intro hall
      unfold findSub
      split
      · rename_i htake
        exact absurd (occursAt_zero.mpr htake) (hall 0)
      · have ht : findSub t ref = none :=
          ih.mpr (fun k hk => hall (k + 1) (occursAt_cons.mpr hk))
        simp [ht]

/-- Search: `findSub` returns the index of the first occurrence of the pattern. -/
theorem findSub_some (body ref : List Nat) :
    ∀ j, findSub body ref = some j →
      OccursAt body ref j ∧ ∀ k < j, ¬ OccursAt body ref k := by
  induction body with
  | nil =>
    intro j h
    unfold findSub at h
    split at h
    · rename_i hr
      injection h with hj
      subst hj
      exact ⟨occursAt_nil.mpr ⟨hr, rfl⟩, fun k hk => by omega⟩
    · exact absurd h (by simp)
  | cons x t ih =>
    intro j h
    unfold findSub at h
    split at h
    · rename_i htake
      injection h with hj
      subst hj
      exact ⟨occursAt_zero.mpr htake, fun k hk => by omega⟩
    · rename_i htake
      cases hft : findSub t ref with
      | none =>
        rw [hft] at h
        simp at h
      | some j0 =>
        rw [hft] at h
        simp at h
        subst h
        obtain ⟨h1, h2⟩ := ih j0 hft
        refine ⟨occursAt_cons.mpr h1, ?_⟩
        intro k hk
        match k with
        | 0 =>
          rw [occursAt_zero]
          exact htake
        | k + 1 =>
          rw [occursAt_cons]
          exact h2 k (by omega)

/-! ### Variant detection -/

theorem seg_take (l : List Nat) (N off n : Nat) (h : off + n ≤ N) :
    seg (l.take N) off n = seg l off n := by
  unfold seg
  rw [List.drop_take, List.take_take, Nat.min_eq_left (by omega)]

theorem detect_short (data : List Nat) (p : Nat) (h : data.length < 56) :
    detect_firmware_type ⟨data, p⟩ = (.error .wrongSize, ⟨data, data.length⟩) := by
  unfold detect_firmware_type fsRead fsSeek HEADER_SIZE_W80X HEADER_SIZE_W60X
  simp only [List.drop_zero]
  rw [if_pos (by rw [List.length_take]; omega)]
  rw [List.length_take, Nat.min_eq_right (by omega), Nat.zero_add]

theorem detect_eq (data : List Nat) (p : Nat) (h56 : 56 ≤ data.length) :
    detect_firmware_type ⟨data, p⟩ =
      (if crc32 (data.take 52) = le32 (seg data 52 4) then .ok "W60x"
       else if 64 ≤ data.length then .ok "W80x"
       else .error .unknownType, ⟨data, p⟩) := by
  unfold detect_firmware_type fsRead fsSeek HEADER_SIZE_W80X HEADER_SIZE_W60X
  simp only [List.drop_zero]
  rw [if_neg (by rw [List.length_take]; omega)]
  rw [seg_take data 64 52 4 (by norm_num),
    show (data.take 64).take 52 = data.take 52 by rw [List.take_take]; norm_num]
  by_cases hcrc : crc32 (data.take 52) = le32 (seg data 52 4)
  · rw [if_pos hcrc, if_pos hcrc]
  · rw [if_neg hcrc, if_neg hcrc]
    by_cases h64 : 64 ≤ data.length
    · rw [if_pos (by rw [List.length_take]; omega), if_pos h64]
    · rw [if_neg (by rw [List.length_take]; omega), if_neg h64]

/-- C2: for inputs of at least 56 bytes, detection returns W60x iff the JAMCRC
of bytes 0..51 equals the little-endian 32-bit value at offset 52; on a
mismatch it returns W80x when at least 64 bytes were read (`data.length ≥ 64`)
and fails with the unknown-type error when fewer were read; inputs shorter
than 56 bytes fail with the structural wrong-size error. -/
theorem detect_firmware_type_spec (data : List Nat) (p : Nat) :
    (data.length < 56 →
      (detect_firmware_type ⟨data, p⟩).1 = .error .wrongSize) ∧
    (56 ≤ data.length →
      (((detect_firmware_type ⟨data, p⟩).1 = .ok "W60x") ↔
        crc32 (data.take 52) = le32 (seg data 52 4)) ∧
      (crc32 (data.take 52) ≠ le32 (seg data 52 4) →
        (64 ≤ data.length → (detect_firmware_type ⟨data, p⟩).1 = .ok "W80x") ∧
        (data.length < 64 →
          (detect_firmware_type ⟨data, p⟩).1 = .error .unknownType))) := by
  constructor
  · intro h
    rw [detect_short data p h]
  · intro h56
    rw [detect_eq data p h56]
    refine ⟨?_, ?_⟩
    · by_cases hcrc : crc32 (data.take 52) = le32 (seg data 52 4)
      · simp [hcrc]
      · simp only [if_neg hcrc]
        constructor
        · intro h
          by_cases h64 : 64 ≤ data.length
          · rw [if_pos h64] at h
            simp at h
          · rw [if_neg h64] at h
            simp at h
        · intro h
          exact absurd h hcrc
    · intro hcrc
      simp only [if_neg hcrc]
      exact ⟨fun h64 => by rw [if_pos h64], fun h64 => by rw [if_neg (by omega)]⟩

/-- The JAMCRC checksum of 52 zero bytes, evaluated step by step (`simp`
normalizes every intermediate register value eagerly). -/
theorem crc32_z52 : crc32 (List.replicate 52 0) = 869593167 := by
  simp [crc32, binascii_crc32, crcByte, crcBit, CRC_POLY]

theorem crc32_take52_zeros (n : Nat) (_hn : 52 ≤ n)
    (h : (List.replicate n (0 : Nat)).take 52 = List.replicate 52 0) :
    crc32 ((List.replicate n (0 : Nat)).take 52) = 869593167 := by
  rw [h, crc32_z52]

/-- Concrete container that detects as W60x: 52 zero bytes followed by the
little-endian encoding of their own JAMCRC checksum (`869593167`, verified by
`crc32_z52`). -/
def c2w60 : List Nat := List.replicate 52 0 ++ le4 869593167

set_option maxRecDepth 10000 in
/-- Witness for `detect_firmware_type_spec`: all four outcomes at concrete
inputs. -/
theorem detect_firmware_type_spec_witness :
    (detect_firmware_type ⟨c2w60, 0⟩).1 = .ok "W60x" ∧
    (detect_firmware_type ⟨List.replicate 70 0, 5⟩).1 = .ok "W80x" ∧
    (detect_firmware_type ⟨List.replicate 60 0, 0⟩).1 = .error .unknownType ∧
    (detect_firmware_type ⟨List.replicate 10 0, 0⟩).1 = .error .wrongSize := by
  refine ⟨?_, ?_, ?_, ?_⟩
  · refine ((detect_firmware_type_spec c2w60 0).2 (by decide)).1.mpr ?_
    have h1 : c2w60.take 52 = List.replicate 52 0 := by decide
    have h2 : le32 (seg c2w60 52 4) = 869593167 := by decide
    rw [h1, h2, crc32_z52]
  · refine (((detect_firmware_type_spec (List.replicate 70 0) 5).2 (by decide)).2
      ?_).1 (by decide)
    rw [crc32_take52_zeros 70 (by omega) (by decide),
      show le32 (seg (List.replicate 70 (0 : Nat)) 52 4) = 0 from by decide]
    decide
  · refine (((detect_firmware_type_spec (List.replicate 60 0) 0).2 (by decide)).2
      ?_).2 (by decide)
    rw [crc32_take52_zeros 60 (by omega) (by decide),
      show le32 (seg (List.replicate 60 (0 : Nat)) 52 4) = 0 from by decide]
    decide
  · exact (detect_firmware_type_spec (List.replicate 10 0) 0).1 (by decide)

/-- C10: whenever `detect_firmware_type` returns a firmware type (rather than
raising), the file cursor afterwards equals the cursor position on entry, even
though the function reads up to 64 bytes from offset 0. -/
theorem detect_firmware_type_restores_position (data : List Nat) (p : Nat)
    (h : ∃ v, (detect_firmware_type ⟨data, p⟩).1 = .ok v) :
    ((detect_firmware_type ⟨data, p⟩).2).pos = p := by
  rcases Nat.lt_or_ge data.length 56 with hl | hl
  · obtain ⟨v, hv⟩ := h
    rw [detect_short data p hl] at hv
    simp at hv
  · rw [detect_eq data p hl]

set_option maxRecDepth 10000 in
/-- Witness for `detect_firmware_type_restores_position` at a concrete input
whose entry position is 37. -/
theorem detect_firmware_type_restores_position_witness :
    ((detect_firmware_type ⟨List.replicate 70 0, 37⟩).2).pos = 37 :=
  detect_firmware_type_restores_position (List.replicate 70 0) 37 ⟨"W80x", by
    rw [detect_eq (List.replicate 70 0) 37 (by decide)]
    rw [if_neg (by
      rw [crc32_take52_zeros 70 (by omega) (by decide),
        show le32 (seg (List.replicate 70 (0 : Nat)) 52 4) = 0 from by decide]
      decide)]
    rw [if_pos (by decide)]⟩

/-! ### Claim theorems: checksum, replace_data, patch chain, size mismatch -/

set_option maxRecDepth 100000 in
/-- C5: for every byte sequence, `crc32` equals the bitwise complement of the
standard CRC-32 (`binascii_crc32`) reduced modulo `2^32`, i.e.
`2^32 - 1 - binascii_crc32 b`; the checksum of the empty input is
`0xFFFFFFFF`; and the implementation reproduces the published CRC-32/JAMCRC
check value for the input "123456789".  The function is a total Lean
function, hence deterministic with no error cases. -/
theorem crc32_spec :
    (∀ b : List Nat, (∀ x ∈ b, x < 256) →
      crc32 b = 4294967295 - binascii_crc32 b ∧ binascii_crc32 b < 4294967296) ∧
    crc32 [] = 0xFFFFFFFF ∧
    binascii_crc32 [0x31, 0x32, 0x33, 0x34, 0x35, 0x36, 0x37, 0x38, 0x39] =
      0xCBF43926 ∧
    crc32 [0x31, 0x32, 0x33, 0x34, 0x35, 0x36, 0x37, 0x38, 0x39] = 0x340BC6D9 := by
  refine ⟨?_, rfl, rfl, rfl⟩
  intro b hb
  have hlt := binascii_crc32_lt b hb
  refine ⟨?_, hlt⟩
  unfold crc32
  rw [show (0xFFFFFFFF : Nat) = 2 ^ 32 - 1 by norm_num,
    xor_ones 32 _ (by norm_num at hlt ⊢; omega)]

/-- Witness for `crc32_spec` at the concrete byte sequence `[1, 2, 3]`. -/
theorem crc32_spec_witness :
    (∀ x ∈ [1, 2, 3], x < 256) ∧
    crc32 [1, 2, 3] = 4294967295 - binascii_crc32 [1, 2, 3] :=
  ⟨by decide, (crc32_spec.1 [1, 2, 3] (by decide)).1⟩

/-- C3: `replace_data` returns the body unchanged with `matched = false` when
the reference pattern occurs nowhere in the body, and splices the modified
bytes in place of the first occurrence of the reference otherwise. -/
theorem replace_data_spec (body ref mod_data : List Nat) :
    ((∀ k, ¬ OccursAt body ref k) →
      replace_data body ref mod_data = (body, false)) ∧
    (∀ i, OccursAt body ref i → (∀ k, k < i → ¬ OccursAt body ref k) →
      replace_data body ref mod_data =
        (body.take i ++ mod_data ++ body.drop (i + ref.length), true)) := by
  constructor
  · intro h
    unfold replace_data
    rw [(findSub_none body ref).mpr h]
  · intro i hi hmin
    have hfind : findSub body ref = some i := by
      cases hf : findSub body ref with
      | none => exact absurd hi ((findSub_none body ref).mp hf i)
      | some j =>
        obtain ⟨hj, hjmin⟩ := findSub_some body ref j hf
        have hij : i = j := by
          rcases Nat.lt_trichotomy i j with h | h | h
          · exact absurd hi (hjmin i h)
          · exact h
          · exact absurd hj (hmin j h)
        rw [hij]
    unfold replace_data
    rw [hfind]

/-- Witness for `replace_data_spec`: a no-match pair leaves the body
byte-identical, and the spec scenario `AABBCCDD / BB / XX → AAXXCCDD`
(ASCII bytes) splices at the first occurrence, index 2. -/
theorem replace_data_spec_witness :
    replace_data [1, 2] [7, 8, 9] [3, 4, 5] = ([1, 2], false) ∧
    replace_data [65, 65, 66, 66, 67, 67, 68, 68] [66, 66] [88, 88] =
      ([65, 65, 88, 88, 67, 67, 68, 68], true) := by
  constructor
  · refine (replace_data_spec [1, 2] [7, 8, 9] [3, 4, 5]).1 ?_
    intro k hk
    obtain ⟨h1, -⟩ := hk
    simp only [List.length_cons, List.length_nil] at h1
    omega
  · exact ((replace_data_spec [65, 65, 66, 66, 67, 67, 68, 68] [66, 66]
      [88, 88]).2 2 (by decide) (by decide)).trans (by decide)

/-- C4: after a successful patch, the rewritten header's original-body-checksum
field equals the checksum of the new body, its trailing checksum field equals
the checksum of the first 60 bytes of the re-encoded header, and therefore
`validate_header` on the new header and the body-checksum comparison on the
new body both succeed. -/
theorem patchHeader_spec (header : W80xHeader) (new_body : List Nat) :
    (patchHeader header new_body).org_checksum = crc32 new_body ∧
    (patchHeader header new_body).hd_checksum =
      crc32 ((pack64 (patchHeader header new_body)).take 60) ∧
    validate_header (pack64 (patchHeader header new_body)) HEADER_SIZE_W80X
      (patchHeader header new_body).hd_checksum = .ok true ∧
    crc32 new_body = (patchHeader header new_body).org_checksum := by
  have hpack : (pack64 (patchHeader header new_body)).take 60 =
      pack60 (patchHeader header new_body) := pack64_take_60 _
  have hhd : (patchHeader header new_body).hd_checksum =
      crc32 (pack60 (patchHeader header new_body)) := rfl
  refine ⟨rfl, ?_, ?_, rfl⟩
  · rw [hpack]
    exact hhd
  · unfold validate_header HEADER_SIZE_W80X
    simp only [show (64 - 4 : Nat) = 60 from rfl]
    rw [show (pack64 (patchHeader header new_body)).take 60 =
      pack60 (patchHeader header new_body) from hpack]
    rw [if_neg (by intro hne; exact hne hhd.symm)]

/-- C6: a reference/modified pair of unequal lengths is a hard error in
single-file mode — the result is the same error constant for every body, so
no search of the body happens and no patch state is produced — while in
directory mode the offending pair is skipped and the batch result is exactly
the result of running the remaining pairs. -/
theorem replacement_size_mismatch_spec :
    (∀ (body : List Nat) (name : String) (ref mod_data : List Nat),
      ref.length ≠ mod_data.length →
      replacePhase body (.single name ref (some mod_data)) =
        .error (.valueError .refModSizeMismatch)) ∧
    (∀ (body : List Nat) (st : DirState) (pre post : List DirEntry)
      (e : DirEntry) (m : List Nat), e.mod = some m → e.ref.length ≠ m.length →
      dirReplaceLoop body st (pre ++ e :: post) =
        dirReplaceLoop body st (pre ++ post)) := by
  constructor
  · intro body name ref md h
    simp only [replacePhase]
    rw [if_pos h]
  · intro body st pre post e m hm hlen
    have hstep : ∀ s, dirStep body s e = s := by
      intro s
      unfold dirStep
      rw [hm]
      simp only []
      rw [if_pos hlen]
    unfold dirReplaceLoop
    rw [List.foldl_append, List.foldl_cons, hstep, ← List.foldl_append]

/-- Witness for `replacement_size_mismatch_spec`: a concrete mismatched single
pair errors out, and a batch with a mismatched middle pair equals the batch
without it. -/
theorem replacement_size_mismatch_spec_witness :
    replacePhase [5] (.single "a_ref.bin" [1, 2] (some [9])) =
      .error (.valueError .refModSizeMismatch) ∧
    dirReplaceLoop [5] ([5], false, [])
        [⟨"g_ref.bin", [5], some [6]⟩, ⟨"b_ref.bin", [1, 2], some [9]⟩,
         ⟨"h_ref.bin", [6], some [7]⟩] =
      dirReplaceLoop [5] ([5], false, [])
        [⟨"g_ref.bin", [5], some [6]⟩, ⟨"h_ref.bin", [6], some [7]⟩] := by
  constructor
  · exact replacement_size_mismatch_spec.1 [5] "a_ref.bin" [1, 2] [9] (by decide)
  · exact replacement_size_mismatch_spec.2 [5] ([5], false, [])
      [⟨"g_ref.bin", [5], some [6]⟩] [⟨"h_ref.bin", [6], some [7]⟩]
      ⟨"b_ref.bin", [1, 2], some [9]⟩ [9] rfl (by decide)

/-! ### The W80x image walk -/

/-- A well-formed W80x image as raw bytes: a full-size header with the magic
word, a correct trailing header checksum, a declared length equal to the
body's length, and a correct body checksum. -/
def WfImage (h b : List Nat) : Prop :=
  h.length = 64 ∧ (∀ x ∈ h, x < 256) ∧
  le32 (h.take 4) = MAGIC_WORD ∧
  le32 (seg h 60 4) = crc32 (h.take 60) ∧
  le32 (seg h 12 4) = b.length ∧
  le32 (seg h 24 4) = crc32 b

instance (h b : List Nat) : Decidable (WfImage h b) :=
  inferInstanceAs (Decidable (_ ∧ _))

theorem readHeaderPhase_w80x (data : List Nat) (pos : Nat) :
    readHeaderPhase ⟨data, pos⟩ "W80x" =
      (64, (data.drop pos).take 64,
       ⟨data, pos + ((data.drop pos).take 64).length⟩) := by
  unfold readHeaderPhase fsRead HEADER_SIZE_W80X
  rw [if_neg (by decide)]

theorem wrapperPhase_w80x_cons (n hs : Nat) (hd : List Nat) (f : FileStream)
    (hne : hd ≠ []) :
    wrapperPhase "W80x" n hs hd f = some (hd, f, n, 10) := by
  unfold wrapperPhase
  rw [if_neg (by rintro ⟨h1, -⟩; exact absurd h1 (by decide))]
  rw [if_neg hne]

theorem wrapperPhase_w80x_end (n hs : Nat) (f : FileStream) :
    wrapperPhase "W80x" n hs [] f = none := by
  unfold wrapperPhase
  rw [if_neg (by rintro ⟨h1, -⟩; exact absurd h1 (by decide))]
  rw [if_pos rfl]

theorem headerChecks_w80x_ok (h : List Nat) (hlen : h.length = 64)
    (hbytes : ∀ x ∈ h, x < 256) (hmagic : le32 (h.take 4) = MAGIC_WORD)
    (hcksum : le32 (seg h 60 4) = crc32 (h.take 60)) :
    headerChecks "W80x" 64 h =
      .ok (.w80x (unpack64 h), (unpack64 h).img_len, (unpack64 h).org_checksum) := by
  unfold headerChecks
  rw [if_neg (by omega)]
  simp only []
  rw [if_neg (fun hne => hne hmagic)]
  rw [if_neg (fun hne => hne hlen)]
  rw [if_neg (by decide)]
  rw [pack64_unpack64 h hlen hbytes]
  have hval : validate_header h 64 (unpack64 h).hd_checksum = .ok true := by
    unfold validate_header
    rw [if_neg (fun hne => hne hcksum.symm)]
  rw [hval]

theorem headerChecks_w80x_badsum (h : List Nat) (hlen : h.length = 64)
    (hbytes : ∀ x ∈ h, x < 256) (hmagic : le32 (h.take 4) = MAGIC_WORD)
    (hbad : crc32 (h.take 60) ≠ le32 (seg h 60 4)) :
    headerChecks "W80x" 64 h =
      .error (.valueError
        (.headerChecksum (le32 (seg h 60 4)) (crc32 (h.take 60)))) := by
  unfold headerChecks
  rw [if_neg (by omega)]
  simp only []
  rw [if_neg (fun hne => hne hmagic)]
  rw [if_neg (fun hne => hne hlen)]
  rw [if_neg (by decide)]
  rw [pack64_unpack64 h hlen hbytes]
  have hval : validate_header h 64 (unpack64 h).hd_checksum =
      .error (.headerChecksum (le32 (seg h 60 4)) (crc32 (h.take 60))) := by
    unfold validate_header
    simp only []
    rw [if_pos (show crc32 (h.take (64 - 4)) ≠ (unpack64 h).hd_checksum from hbad)]
    rfl
  rw [hval]

theorem readBodyPhase_w80x (data : List Nat) (pos : Nat) (b rest : List Nat)
    (hsplit : data.drop pos = b ++ rest) :
    readBodyPhase ⟨data, pos⟩ "W80x" b.length = (b, ⟨data, pos + b.length⟩) := by
  unfold readBodyPhase fsRead
  rw [if_neg (by decide)]
  simp only [hsplit, List.take_left, List.length_take]

theorem emitPhase_parse_only (phdr : ParsedHeader) (b : List Nat)
    (il oc : Nat) (ext : Bool) (hil : il = b.length) (hoc : oc = crc32 b) :
    emitPhase phdr b il oc none ext =
      .ok (⟨phdr, b, crc32 b, true, true⟩, [], if ext then [b] else [], []) := by
  subst hil hoc
  unfold emitPhase
  simp

/-- One walk step over a well-formed W80x image: the image is emitted with
both validity flags set and the cursor ends right after the body. -/
theorem process_image_wf (data : List Nat) (pos n : Nat) (ext : Bool)
    (h b rest : List Nat) (hw : WfImage h b)
    (hsplit : data.drop pos = h ++ (b ++ rest)) :
    process_image ⟨data, pos⟩ "W80x" n none ext =
      .ok (some (⟨⟨.w80x (unpack64 h), b, crc32 b, true, true⟩, n + 10, [],
        if ext then [b] else [], []⟩, ⟨data, pos + 64 + b.length⟩)) := by
  obtain ⟨hlen, hbytes, hmagic, hcksum, hlen32, hbcrc⟩ := hw
  have f1 : (data.drop pos).take 64 = h := by
    rw [hsplit]
    exact List.take_left' hlen
  have f3 : data.drop (pos + 64) = b ++ rest := by
    have h1 : (data.drop pos).drop 64 = data.drop (pos + 64) := List.drop_drop 64 pos data
    rw [← h1, hsplit]
    exact List.drop_left' hlen
  have himg : (unpack64 h).img_len = b.length := hlen32
  have horg : (unpack64 h).org_checksum = crc32 b := hbcrc
  unfold process_image
  rw [readHeaderPhase_w80x]
  simp only [f1, hlen]
  rw [wrapperPhase_w80x_cons n 64 h ⟨data, pos + 64⟩
    (by intro hc; rw [hc] at hlen; simp at hlen)]
  simp only []
  rw [headerChecks_w80x_ok h hlen hbytes hmagic hcksum]
  simp only []
  rw [himg, readBodyPhase_w80x data (pos + 64) b rest f3]
  simp only []
  rw [emitPhase_parse_only (.w80x (unpack64 h)) b b.length (unpack64 h).org_checksum
    ext rfl horg]

/-- A walk step at the end of the container: the header read returns zero
bytes and the walk ends cleanly (`return None`). -/
theorem process_image_end (data : List Nat) (pos n : Nat)
    (r : Option RefTarget) (ext : Bool) (hend : data.drop pos = []) :
    process_image ⟨data, pos⟩ "W80x" n r ext = .ok none := by
  unfold process_image
  rw [readHeaderPhase_w80x]
  simp only [hend, List.take_nil, List.length_nil, Nat.add_zero]
  rw [wrapperPhase_w80x_end]

/-- Concatenate a list of (header bytes, body bytes) images into one
container byte stream. -/
def flattenImgs : List (List Nat × List Nat) → List Nat
  | [] => []
  | p :: t => p.1 ++ (p.2 ++ flattenImgs t)

theorem flattenImgs_length_ge (imgs : List (List Nat × List Nat))
    (hwf : ∀ p ∈ imgs, WfImage p.1 p.2) :
    imgs.length ≤ (flattenImgs imgs).length := by
  induction imgs with
  | nil => simp [flattenImgs]
  | cons p t ih =>
    have h1 := (hwf p (by simp)).1
    have h2 := ih (fun q hq => hwf q (by simp [hq]))
    simp only [flattenImgs, List.length_append, List.length_cons]
    omega

/-- Walking a stream of well-formed W80x images in parse mode emits exactly
those images, in order, each with both validity flags set, then ends cleanly
on the zero-byte header read. -/
theorem walkLoop_wf (imgs : List (List Nat × List Nat)) :
    ∀ (fuel : Nat) (data : List Nat) (pos n : Nat) (ext : Bool),
      (∀ p ∈ imgs, WfImage p.1 p.2) →
      data.drop pos = flattenImgs imgs →
      imgs.length < fuel →
      walkLoop fuel ⟨data, pos⟩ "W80x" n none ext =
        (imgs.map (fun p => ⟨.w80x (unpack64 p.1), p.2, crc32 p.2, true, true⟩),
         [], if ext then imgs.map Prod.snd else [], [], none, false) := by
  induction imgs with
  | nil =>
    intro fuel data pos n ext hwf hsplit hfuel
    match fuel, hfuel with
    | fuel + 1, _ =>
      unfold walkLoop
      rw [process_image_end data pos n none ext hsplit]
      cases ext <;> simp
  | cons p t ih =>
    intro fuel data pos n ext hwf hsplit hfuel
    match fuel, hfuel with
    | fuel + 1, hf =>
      have hwp : WfImage p.1 p.2 := hwf p (by simp)
      have hwt : ∀ q ∈ t, WfImage q.1 q.2 := fun q hq => hwf q (by simp [hq])
      unfold walkLoop
      rw [process_image_wf data pos n ext p.1 p.2 (flattenImgs t) hwp
        (by rw [hsplit]; rfl)]
      simp only []
      rw [if_neg (by omega)]
      have hrest : data.drop (pos + 64 + p.2.length) = flattenImgs t := by
        have h1 : (data.drop pos).drop (64 + p.2.length) =
            data.drop (pos + (64 + p.2.length)) := List.drop_drop _ _ _
        have h2 : pos + (64 + p.2.length) = pos + 64 + p.2.length := by omega
        rw [← h2, ← h1, hsplit]
        simp only [flattenImgs]
        rw [← List.append_assoc]
        exact List.drop_left' (by rw [List.length_append, hwp.1])
      have hft : t.length < fuel := by
        simp only [List.length_cons] at hf
        omega
      rw [ih fuel data (pos + 64 + p.2.length) (n + 10) ext hwt hrest hft]
      simp only [List.map_cons]
      cases ext <;> simp

/-- C7: walking a container holding `N ≥ 1` well-formed VariantB images (the
variant-detection trial window must miss, as it does for genuine W80x
containers) yields exactly the `N` image records in container order, each
with `size_valid = checksum_valid = true`, and the run records no error and
no crash: the walk ended cleanly on the zero-byte header read after the last
image. -/
theorem walk_wellformed_images (imgs : List (List Nat × List Nat)) (ext : Bool)
    (hne : imgs ≠ [])
    (hwf : ∀ p ∈ imgs, WfImage p.1 p.2)
    (hdet : crc32 ((flattenImgs imgs).take 52) ≠
      le32 (seg (flattenImgs imgs) 52 4)) :
    (parse_firmware (flattenImgs imgs) none ext).images =
      imgs.map (fun p => ⟨.w80x (unpack64 p.1), p.2, crc32 p.2, true, true⟩) ∧
    (parse_firmware (flattenImgs imgs) none ext).errorMsg = none ∧
    (parse_firmware (flattenImgs imgs) none ext).crashed = false := by
  have hlen64 : 64 ≤ (flattenImgs imgs).length := by
    match imgs, hne with
    | p :: t, _ =>
      have h1 := (hwf p (by simp)).1
      simp only [flattenImgs, List.length_append]
      omega
  have hcount : imgs.length ≤ (flattenImgs imgs).length :=
    flattenImgs_length_ge imgs hwf
  unfold parse_firmware
  simp only []
  rw [detect_eq (flattenImgs imgs) 0 (by omega)]
  rw [if_neg hdet, if_pos (by omega)]
  simp only []
  rw [if_neg (by simp)]
  rw [walkLoop_wf imgs (2 * (flattenImgs imgs).length + 4) (flattenImgs imgs)
    0 0 ext hwf (by simp) (by omega)]
  exact ⟨rfl, rfl, rfl⟩

/-- A fully well-formed one-image W80x container as raw bytes: the 64-byte
encoding of a header whose fields are all zero except the magic word (bytes
0-3), the original body checksum `0xFFFFFFFF = crc32 []` for the empty body
(bytes 24-27) and the trailing header checksum `2355013608` (bytes 60-63).
That the trailing checksum really is the checksum of the first 60 bytes is
proved in `wf_cgood`, not trusted. -/
def cgood : List Nat :=
  [159, 255, 255, 160] ++ List.replicate 20 0 ++ [255, 255, 255, 255] ++
    List.replicate 32 0 ++ [232, 167, 94, 140]

/-- The first 60 bytes of `cgood` (the header-checksum window). -/
def cgoodPre60 : List Nat :=
  [159, 255, 255, 160] ++ List.replicate 20 0 ++ [255, 255, 255, 255] ++
    List.replicate 32 0

/-- The first 52 bytes of `cgood` (the variant-detection trial window). -/
def cgoodPre52 : List Nat :=
  [159, 255, 255, 160] ++ List.replicate 20 0 ++ [255, 255, 255, 255] ++
    List.replicate 24 0

theorem crc32_cgoodPre60 : crc32 cgoodPre60 = 2355013608 := by
  simp [cgoodPre60, crc32, binascii_crc32, crcByte, crcBit, CRC_POLY]

theorem crc32_cgoodPre52 : crc32 cgoodPre52 = 2932818631 := by
  simp [cgoodPre52, crc32, binascii_crc32, crcByte, crcBit, CRC_POLY]

/-- The concrete container `cgood` is a well-formed W80x image with empty
body. -/
theorem wf_cgood : WfImage cgood [] := by
  refine ⟨by decide, by decide, by decide, ?_, by decide, by decide⟩
  rw [show cgood.take 60 = cgoodPre60 from by decide, crc32_cgoodPre60]
  decide

theorem cgood_detect_mismatch :
    crc32 ((flattenImgs [(cgood, [])]).take 52) ≠
      le32 (seg (flattenImgs [(cgood, [])]) 52 4) := by
  have hfl : flattenImgs [(cgood, [])] = cgood ++ ([] ++ flattenImgs []) := rfl
  have e1 : (cgood ++ ([] ++ flattenImgs [])).take 52 = cgoodPre52 := by decide
  have e2 : le32 (seg (cgood ++ ([] ++ flattenImgs [])) 52 4) = 0 := by decide
  rw [hfl, e1, e2, crc32_cgoodPre52]
  decide

set_option maxRecDepth 10000 in
/-- Witness for `walk_wellformed_images`: walking the concrete well-formed
one-image container `cgood` yields exactly its image record, valid on both
counts, with no error and no crash. -/
theorem walk_wellformed_images_witness :
    (parse_firmware (flattenImgs [(cgood, [])]) none false).images =
      [(cgood, ([] : List Nat))].map
        (fun p => ⟨.w80x (unpack64 p.1), p.2, crc32 p.2, true, true⟩) ∧
    (parse_firmware (flattenImgs [(cgood, [])]) none false).errorMsg = none ∧
    (parse_firmware (flattenImgs [(cgood, [])]) none false).crashed = false :=
  walk_wellformed_images [(cgood, [])] false (by decide)
    (by
      intro p hp
      simp only [List.mem_singleton] at hp
      subst hp
      exact wf_cgood)
    cgood_detect_mismatch

/-- C8: for a container detected as W60x ("VariantA"), a run with a
replacement target is identical to a run with none — the replacement branch
of `parse_firmware` is never entered, so no output container is produced and
the walk only parses (and optionally extracts). -/
theorem w60x_replacement_ignored (data : List Nat) (tgt : RefTarget) (ext : Bool)
    (hdet : (detect_firmware_type ⟨data, 0⟩).1 = .ok "W60x") :
    parse_firmware data (some tgt) ext = parse_firmware data none ext := by
  unfold parse_firmware
  simp only []
  rcases hd : detect_firmware_type ⟨data, 0⟩ with ⟨r, s⟩
  rw [hd] at hdet
  simp only [] at hdet
  subst hdet
  simp only []
  rw [if_neg (by simp), if_neg (by simp)]

/-- Detection on the concrete container `c2w60` yields W60x. -/
theorem c2w60_detects_w60x :
    (detect_firmware_type ⟨c2w60, 0⟩).1 = .ok "W60x" := by
  rw [detect_eq c2w60 0 (by decide)]
  rw [if_pos (by
    rw [show c2w60.take 52 = List.replicate 52 0 from by decide, crc32_z52,
      show le32 (seg c2w60 52 4) = 869593167 from by decide])]

set_option maxRecDepth 10000 in
/-- Witness for `w60x_replacement_ignored` on the concrete W60x container
`c2w60` and a concrete single-file replacement target. -/
theorem w60x_replacement_ignored_witness :
    parse_firmware c2w60 (some (.single "a_ref.bin" [1] (some [2]))) true =
      parse_firmware c2w60 none true :=
  w60x_replacement_ignored c2w60 (.single "a_ref.bin" [1] (some [2])) true
    c2w60_detects_w60x

/-- A header-checksum mismatch at the cursor makes the walk return at once
with the checksum error, emitting nothing (shared argument for the C1
theorems). -/
theorem walkLoop_header_checksum_abort (data : List Nat) (pos n fuel : Nat)
    (ext : Bool) (hdr : List Nat) (hhdr : hdr = (data.drop pos).take 64)
    (hlen : hdr.length = 64) (hbytes : ∀ x ∈ hdr, x < 256)
    (hmagic : le32 (hdr.take 4) = MAGIC_WORD)
    (hbad : crc32 (hdr.take 60) ≠ le32 (seg hdr 60 4))
    (hfuel : 0 < fuel) :
    walkLoop fuel ⟨data, pos⟩ "W80x" n none ext =
      ([], [], [], [],
       some (.headerChecksum (le32 (seg hdr 60 4)) (crc32 (hdr.take 60))),
       false) := by
  match fuel, hfuel with
  | fuel + 1, _ =>
    have hpi : process_image ⟨data, pos⟩ "W80x" n none ext =
        .error (.valueError
          (.headerChecksum (le32 (seg hdr 60 4)) (crc32 (hdr.take 60)))) := by
      unfold process_image
      rw [readHeaderPhase_w80x]
      simp only [← hhdr, hlen]
      rw [wrapperPhase_w80x_cons n 64 hdr ⟨data, pos + 64⟩
        (by intro hc; rw [hc] at hlen; simp at hlen)]
      simp only []
      rw [headerChecks_w80x_badsum hdr hlen hbytes hmagic hbad]
    unfold walkLoop
    rw [hpi]

/-- C1 (amended): an image whose header fails its checksum verification is
fatal, not per-image: `validate_header` raises, the loop in `parse_firmware`
catches the `ValueError` and breaks, so the image is NOT emitted and the walk
aborts with the header-checksum error — no further images are processed. -/
theorem header_checksum_fatal (data : List Nat) (pos n fuel : Nat) (ext : Bool)
    (hdr : List Nat) (hhdr : hdr = (data.drop pos).take 64)
    (hlen : hdr.length = 64) (hbytes : ∀ x ∈ hdr, x < 256)
    (hmagic : le32 (hdr.take 4) = MAGIC_WORD)
    (hbad : crc32 (hdr.take 60) ≠ le32 (seg hdr 60 4))
    (hfuel : 0 < fuel) :
    walkLoop fuel ⟨data, pos⟩ "W80x" n none ext =
      ([], [], [], [],
       some (.headerChecksum (le32 (seg hdr 60 4)) (crc32 (hdr.take 60))),
       false) :=
  walkLoop_header_checksum_abort data pos n fuel ext hdr hhdr hlen hbytes
    hmagic hbad hfuel

/-- A one-image container whose header has the right magic word but a wrong
(zero) trailing checksum. -/
def cbad : List Nat := le4 MAGIC_WORD ++ List.replicate 60 0

/-- The first 60 bytes of `cbad`. -/
def cbadPre60 : List Nat := [159, 255, 255, 160] ++ List.replicate 56 0

/-- The first 52 bytes of `cbad`. -/
def cbadPre52 : List Nat := [159, 255, 255, 160] ++ List.replicate 48 0

theorem crc32_cbadPre60 : crc32 cbadPre60 = 420997826 := by
  simp [cbadPre60, crc32, binascii_crc32, crcByte, crcBit, CRC_POLY]

theorem crc32_cbadPre52 : crc32 cbadPre52 = 3510684369 := by
  simp [cbadPre52, crc32, binascii_crc32, crcByte, crcBit, CRC_POLY]

theorem cbad_badsum : crc32 (cbad.take 60) ≠ le32 (seg cbad 60 4) := by
  rw [show cbad.take 60 = cbadPre60 from by decide, crc32_cbadPre60,
    show le32 (seg cbad 60 4) = 0 from by decide]
  decide

set_option maxRecDepth 10000 in
/-- Counterexample to C1 as stated: on the concrete container `cbad`, whose
single image header fails its checksum verification, the walk emits NO image
(`images = []`) and aborts with the header-checksum error — the image is not
"still emitted" and processing does not continue. -/
theorem header_checksum_not_emitted :
    (parse_firmware cbad none false).images = [] ∧
    (parse_firmware cbad none false).errorMsg =
      some (.headerChecksum (le32 (seg cbad 60 4)) (crc32 (cbad.take 60))) := by
  unfold parse_firmware
  simp only []
  rw [detect_eq cbad 0 (by decide)]
  rw [if_neg (by
    rw [show cbad.take 52 = cbadPre52 from by decide, crc32_cbadPre52,
      show le32 (seg cbad 52 4) = 0 from by decide]
    decide)]
  rw [if_pos (by decide)]
  simp only []
  rw [if_neg (by simp)]
  rw [walkLoop_header_checksum_abort cbad 0 0 (2 * cbad.length + 4) false cbad
    (by decide) (by decide) (by decide) (by decide) cbad_badsum (by omega)]
  exact ⟨rfl, rfl⟩

set_option maxRecDepth 10000 in
/-- Witness for `header_checksum_fatal`, instantiated on `cbad`. -/
theorem header_checksum_fatal_witness :
    walkLoop (2 * cbad.length + 4) ⟨cbad, 0⟩ "W80x" 0 none false =
      ([], [], [], [],
       some (.headerChecksum (le32 (seg cbad 60 4)) (crc32 (cbad.take 60))),
       false) :=
  header_checksum_fatal cbad 0 0 (2 * cbad.length + 4) false cbad
    (by decide) (by decide) (by decide) (by decide) cbad_badsum (by omega)

/-! ### Replacement mode: what gets written to the output container -/

/-- Replacement targets that the replacement phase handles without raising:
a directory with at least one reference file, or a single reference file
whose mod file exists and has the reference's length. -/
def WfTarget : RefTarget → Prop
  | .dir entries => entries ≠ []
  | .single _ ref mod => ∃ m, mod = some m ∧ ref.length = m.length
  | .invalid => False

theorem pack64_append_ne_nil (h : W80xHeader) (l : List Nat) :
    pack64 h ++ l ≠ [] := by
  intro hc
  have hlen := congrArg List.length hc
  rw [List.length_append, pack64_length] at hlen
  simp at hlen

/-- In the replacement phase, bytes are appended to the output container
exactly when the image passed both the size and the body-checksum check. -/
theorem emitPhase_writes_iff (phdr : ParsedHeader) (body : List Nat)
    (img_len org : Nat) (tgt : RefTarget) (ext : Bool) (imageRec : ImageRec)
    (ob : List Nat) (exs : List (List Nat)) (rps : List (String × Bool))
    (hwf : WfTarget tgt)
    (heq : emitPhase phdr body img_len org (some tgt) ext =
      .ok (imageRec, ob, exs, rps)) :
    (ob ≠ [] ↔
      (imageRec.size_valid = true ∧ imageRec.checksum_valid = true)) := by
  unfold emitPhase at heq
  simp only [] at heq
  by_cases hv : (decide (body.length = img_len) &&
      decide (crc32 body = org)) = true
  · rw [if_pos hv] at heq
    obtain ⟨hv1, hv2⟩ := Bool.and_eq_true_iff.mp hv
    have hrp : ∃ nb replaced reports,
        replacePhase body tgt = .ok (nb, replaced, reports) := by
      cases tgt with
      | dir entries =>
        simp only [replacePhase]
        rw [if_neg hwf]
        exact ⟨_, _, _, rfl⟩
      | single name ref mod =>
        obtain ⟨m, hm, hlenrm⟩ := hwf
        subst hm
        simp only [replacePhase]
        rw [if_neg (by omega)]
        exact ⟨_, _, _, rfl⟩
      | invalid => exact absurd hwf (by simp [WfTarget])
    obtain ⟨nb, replaced, reports, hrp⟩ := hrp
    rw [hrp] at heq
    simp only [] at heq
    cases replaced with
    | true =>
      rw [if_pos rfl] at heq
      cases phdr with
      | w80x h =>
        simp only [] at heq
        simp only [Except.ok.injEq, Prod.mk.injEq] at heq
        obtain ⟨hrec, hob, -, -⟩ := heq
        subst hrec
        subst hob
        simp only [hv1, hv2, true_and, iff_true]
        exact pack64_append_ne_nil _ _
      | w60x h => simp at heq
    | false =>
      rw [if_neg (by simp)] at heq
      cases phdr with
      | w80x h =>
        simp only [] at heq
        simp only [Except.ok.injEq, Prod.mk.injEq] at heq
        obtain ⟨hrec, hob, -, -⟩ := heq
        subst hrec
        subst hob
        simp only [hv1, hv2, true_and, iff_true]
        exact pack64_append_ne_nil _ _
      | w60x h => simp at heq
  · rw [if_neg hv] at heq
    simp only [Except.ok.injEq, Prod.mk.injEq] at heq
    obtain ⟨hrec, hob, -, -⟩ := heq
    subst hrec
    subst hob
    constructor
    · intro hc
      exact absurd rfl hc
    · rintro ⟨h1, h2⟩
      exact absurd (Bool.and_eq_true_iff.mpr ⟨h1, h2⟩) hv

/-- C9: in replacement mode on a W80x container, an image's bytes (header
plus body, patched or not) are written to the output container if and only
if the image passed both the size check and the body-checksum check; an
invalid image is still consumed and reported (`process_image` returns
normally) but contributes no output bytes. -/
theorem replacement_writes_iff_valid (file : FileStream) (n : Nat)
    (tgt : RefTarget) (ext : Bool) (out : StepOut) (f2 : FileStream)
    (hwf : WfTarget tgt)
    (heq : process_image file "W80x" n (some tgt) ext = .ok (some (out, f2))) :
    (out.outBytes ≠ [] ↔
      (out.image.size_valid = true ∧ out.image.checksum_valid = true)) := by
  unfold process_image at heq
  rcases hr : readHeaderPhase file "W80x" with ⟨hs, hd0, f0⟩
  rw [hr] at heq
  simp only [] at heq
  cases hw : wrapperPhase "W80x" n hs hd0 f0 with
  | none =>
    rw [hw] at heq
    simp at heq
  | some q =>
    obtain ⟨hd1, f1, n1, inc⟩ := q
    rw [hw] at heq
    simp only [] at heq
    cases hc : headerChecks "W80x" hs hd1 with
    | error e =>
      rw [hc] at heq
      simp at heq
    | ok trip =>
      obtain ⟨phdr, il, oc⟩ := trip
      rw [hc] at heq
      simp only [] at heq
      rcases hb : readBodyPhase f1 "W80x" il with ⟨body, f3⟩
      rw [hb] at heq
      simp only [] at heq
      cases he : emitPhase phdr body il oc (some tgt) ext with
      | error e =>
        rw [he] at heq
        simp at heq
      | ok res =>
        obtain ⟨imageRec, ob, exs, rps⟩ := res
        rw [he] at heq
        simp only [Except.ok.injEq, Option.some.injEq, Prod.mk.injEq] at heq
        obtain ⟨hout, -⟩ := heq
        subst hout
        exact emitPhase_writes_iff phdr body il oc tgt ext imageRec ob exs rps
          hwf he

/-- The emit phase on a valid image whose replacement pairs all fail to
match: the original header and body are written out. -/
theorem emitPhase_replace_nomatch (h : W80xHeader) (b : List Nat)
    (il oc : Nat) (tgt : RefTarget) (ext : Bool) (nb : List Nat)
    (rps : List (String × Bool)) (hil : il = b.length) (hoc : oc = crc32 b)
    (hrp : replacePhase b tgt = .ok (nb, false, rps)) :
    emitPhase (.w80x h) b il oc (some tgt) ext =
      .ok (⟨.w80x h, b, crc32 b, true, true⟩, pack64 h ++ b,
        if ext then [b] else [], rps) := by
  subst hil hoc
  unfold emitPhase
  simp [hrp]

/-- A replace-mode walk step on a well-formed W80x image with a no-match
replacement outcome: the image is emitted as valid and the original header
and body are written to the output container. -/
theorem process_image_wf_replace (data : List Nat) (pos n : Nat) (ext : Bool)
    (h b rest : List Nat) (tgt : RefTarget) (nb : List Nat)
    (rps : List (String × Bool)) (hw : WfImage h b)
    (hsplit : data.drop pos = h ++ (b ++ rest))
    (hrp : replacePhase b tgt = .ok (nb, false, rps)) :
    process_image ⟨data, pos⟩ "W80x" n (some tgt) ext =
      .ok (some (⟨⟨.w80x (unpack64 h), b, crc32 b, true, true⟩, n + 10,
        pack64 (unpack64 h) ++ b, if ext then [b] else [], rps⟩,
        ⟨data, pos + 64 + b.length⟩)) := by
  obtain ⟨hlen, hbytes, hmagic, hcksum, hlen32, hbcrc⟩ := hw
  have f1 : (data.drop pos).take 64 = h := by
    rw [hsplit]
    exact List.take_left' hlen
  have f3 : data.drop (pos + 64) = b ++ rest := by
    have h1 : (data.drop pos).drop 64 = data.drop (pos + 64) :=
      List.drop_drop 64 pos data
    rw [← h1, hsplit]
    exact List.drop_left' hlen
  have himg : (unpack64 h).img_len = b.length := hlen32
  have horg : (unpack64 h).org_checksum = crc32 b := hbcrc
  unfold process_image
  rw [readHeaderPhase_w80x]
  simp only [f1, hlen]
  rw [wrapperPhase_w80x_cons n 64 h ⟨data, pos + 64⟩
    (by intro hc; rw [hc] at hlen; simp at hlen)]
  simp only []
  rw [headerChecks_w80x_ok h hlen hbytes hmagic hcksum]
  simp only []
  rw [himg, readBodyPhase_w80x data (pos + 64) b rest f3]
  simp only []
  rw [emitPhase_replace_nomatch (unpack64 h) b b.length
    (unpack64 h).org_checksum tgt ext nb rps rfl horg hrp]

/-- The concrete replacement target used by the C9 witness: one directory
pair whose reference does not occur in the (empty) body. -/
def c9tgt : RefTarget := .dir [⟨"a_ref.bin", [9], some [7]⟩]

set_option maxRecDepth 10000 in
/-- Witness for `replacement_writes_iff_valid` on the concrete container
`cgood` with target `c9tgt`: the step writes the (unpatched) header and body
and the image is valid on both counts. -/
theorem replacement_writes_iff_valid_witness :
    WfTarget c9tgt ∧
    ((pack64 (unpack64 cgood) ++ ([] : List Nat) ≠ []) ↔
      ((true : Bool) = true ∧ (true : Bool) = true)) := by
  have hwf : WfTarget c9tgt := by
    simp only [c9tgt, WfTarget]
    decide
  refine ⟨hwf, ?_⟩
  exact replacement_writes_iff_valid ⟨cgood, 0⟩ 0 c9tgt false
    ⟨⟨.w80x (unpack64 cgood), [], crc32 [], true, true⟩, 10,
      pack64 (unpack64 cgood) ++ [], [], [("a_ref.bin", false)]⟩
    ⟨cgood, 64⟩ hwf
    (process_image_wf_replace cgood 0 0 false cgood [] [] c9tgt []
      [("a_ref.bin", false)] wf_cgood (by simp) rfl)

end FLSTweak
